import Mathlib

/-!
Shallow embedding of the GO-Map (GeoExcel Mapper) core: record/layer data
model, the two-stage filter engine, legend toggling, edit reconciliation,
enrichment batching (src/App.tsx) and the spreadsheet/geometry helpers
(src/utils/excelHelpers.ts, src/constants.ts).

JavaScript numbers are modelled as rationals, JS objects as association
lists, and the handful of JS string builtins used by the code
(toLowerCase, trim, split, includes, String()) as structurally recursive
functions on character lists so that every definition evaluates inside
the kernel.
-/

namespace GoMap

/-! ## JS string builtins, modelled on character lists -/

/-- Models String.prototype.toLowerCase (ASCII case folding). -/
def jsToLower (s : String) : String := ⟨s.data.map Char.toLower⟩

/-- Drops leading whitespace characters. -/
def trimLeftChars : List Char → List Char
  | [] => []
  | c :: cs => if c.isWhitespace then trimLeftChars cs else c :: cs

/-- Models String.prototype.trim. -/
def jsTrim (s : String) : String :=
  ⟨trimLeftChars ((trimLeftChars s.data.reverse).reverse)⟩

/-- Splits a character list at every comma, as String.prototype.split with a comma does. -/
def splitCommaAux (cur : List Char) : List Char → List (List Char)
  | [] => [cur.reverse]
  | c :: cs => if c = ',' then cur.reverse :: splitCommaAux [] cs else splitCommaAux (c :: cur) cs

/-- Models s.split with separator a comma: the empty string yields one empty token. -/
def jsSplitComma (s : String) : List String :=
  (splitCommaAux [] s.data).map (fun cs => ⟨cs⟩)

/-- Substring occurrence test on character lists. -/
def containsSubChars : List Char → List Char → Bool
  | [], pat => pat.isEmpty
  | s@(_ :: t), pat => pat.isPrefixOf s || containsSubChars t pat

/-- Models String.prototype.includes. -/
def jsIncludes (s pat : String) : Bool := containsSubChars s.data pat.data

/-- Decimal digit character for a digit value. -/
def digitChar : Nat → Char
  | 0 => '0' | 1 => '1' | 2 => '2' | 3 => '3' | 4 => '4'
  | 5 => '5' | 6 => '6' | 7 => '7' | 8 => '8' | _ => '9'

/-- Decimal digits of a natural number, with explicit fuel so the kernel can evaluate it. -/
def natToCharsAux : Nat → Nat → List Char
  | 0, _ => []
  | fuel + 1, n => if n < 10 then [digitChar n] else natToCharsAux fuel (n / 10) ++ [digitChar (n % 10)]

/-- Decimal rendering of a natural number. -/
def natToString (n : Nat) : String := ⟨natToCharsAux (n + 1) n⟩

/-- Decimal rendering of an integer. -/
def intToString : Int → String
  | .ofNat n => natToString n
  | .negSucc m => "-" ++ natToString (m + 1)

/-- Canonical rendering of a rational; stands in for JS number formatting. -/
def ratToString (q : ℚ) : String :=
  if q.den = 1 then intToString q.num else intToString q.num ++ "/" ++ natToString q.den

/-! ## Data model (src/types.ts) -/

/-- A primitive JS cell value: a string or a number (modelled as a rational). -/
inductive Value where
  | str (s : String)
  | num (q : ℚ)
deriving DecidableEq

/-- JS truthiness of a cell value: the empty string and zero are falsy. -/
def Value.truthy : Value → Bool
  | .str s => !(s = "")
  | .num q => !(q = 0)

/-- Models JS stringification of a cell value. -/
def Value.toStr : Value → String
  | .str s => s
  | .num q => ratToString q

/-- A record (CustomerData, src/types.ts): internal id, coordinates, and the
dynamic spreadsheet attributes as an association list. -/
structure CustomerData where
  id : String
  lat : ℚ
  lng : ℚ
  fields : List (String × Value)
deriving DecidableEq

/-- Models item[key] on a record object: id, lat and lng are ordinary keys of
the JS object; every other key is looked up among the dynamic attributes. -/
def CustomerData.get (d : CustomerData) (key : String) : Option Value :=
  if key = "id" then some (.str d.id)
  else if key = "lat" then some (.num d.lat)
  else if key = "lng" then some (.num d.lng)
  else d.fields.lookup key

/-- Filter rule operators (src/types.ts lines 50-56). -/
inductive Operator where
  | equals | contains | gt | lt | inOp
deriving DecidableEq

/-- Highlight style carried by a rule (FilterStyle, src/types.ts). -/
structure FilterStyle where
  enabled : Bool
  color : String
  shape : String
deriving DecidableEq

/-- A filter rule (FilterRule, src/types.ts). -/
structure FilterRule where
  id : String
  field : String
  operator : Operator
  value : String
  style : Option FilterStyle
deriving DecidableEq

/-- Truthiness of filter.style?.enabled. -/
def FilterRule.isHighlight (f : FilterRule) : Bool :=
  match f.style with
  | some st => st.enabled
  | none => false

/-- A layer configuration (LayerConfig, src/types.ts). -/
structure LayerConfig where
  id : String
  name : String
  fileName : String
  data : List CustomerData
  visible : Bool
  isPlacesLayer : Option Bool
  colorByField : String
  shapeByField : String
  labelByField : String
  pointSize : ℚ
  colorMap : List (String × String)
  shapeMap : List (String × String)
  hiddenCategories : List String
  defaultColor : String
  defaultShape : String
deriving DecidableEq

/-! ## Filter engine (filteredLayers, src/App.tsx lines 61-93) -/

/-- The sentinel for a missing or falsy category value (Arabic for unspecified). -/
def sentinel : String := "غير محدد"

/-- Normalized category value of a record: String of d[field] when truthy, else the sentinel. -/
def categoryValue (d : CustomerData) (field : String) : String :=
  match d.get field with
  | some v => if v.truthy then v.toStr else sentinel
  | none => sentinel

/-- Stage 1 of filteredLayers: drop records whose normalized colorByField
value is among the layer's hidden categories (App.tsx lines 63-70). -/
def legendFilter (layer : LayerConfig) : List CustomerData :=
  if layer.hiddenCategories.length > 0 then
    layer.data.filter (fun d => !(layer.hiddenCategories.contains (categoryValue d layer.colorByField)))
  else layer.data

/-- The operator switch of the stage-2 rule predicate, reached once the field
value is known to be non-null (App.tsx lines 77-86). -/
def ruleMatches (f : FilterRule) (item : CustomerData) : Bool :=
  match item.get f.field with
  | none => false
  | some itemVal =>
    let strVal := jsToLower itemVal.toStr
    let filterVal := jsToLower f.value
    match f.operator with
    | .contains => jsIncludes strVal filterVal
    | .equals => strVal == filterVal
    | .inOp => ((jsSplitComma filterVal).map jsTrim).contains strVal
    | _ => true

/-- The full per-rule predicate of stage 2: a highlight rule always passes
(App.tsx line 76), otherwise the matcher decides. -/
def rulePass (f : FilterRule) (item : CustomerData) : Bool :=
  if f.isHighlight then true else ruleMatches f item

/-- Stage 2 of filteredLayers: conjunction of all rules over the stage-1
output (App.tsx lines 72-89). -/
def ruleFilter (filters : List FilterRule) (data : List CustomerData) : List CustomerData :=
  if filters.length > 0 then data.filter (fun item => filters.all (fun f => rulePass f item))
  else data

/-- The visible record set of a layer after both filter stages. -/
def visibleData (filters : List FilterRule) (layer : LayerConfig) : List CustomerData :=
  ruleFilter filters (legendFilter layer)

/-- The filteredLayers computation: every layer with its data replaced by its
visible record set (App.tsx lines 61-93). -/
def filteredLayers (filters : List FilterRule) (layers : List LayerConfig) : List LayerConfig :=
  layers.map (fun l => { l with data := visibleData filters l })

/-! ## Record merging (JS object spread) -/

/-- Shallow merge of two attribute maps as JS object spread does: keys of the
base keep their position with overridden values, new keys are appended. -/
def mergeFields (base upd : List (String × Value)) : List (String × Value) :=
  (base.map (fun kv => (kv.1, (upd.lookup kv.1).getD kv.2))) ++
    upd.filter (fun kv => (base.lookup kv.1).isNone)

/-- A Partial CustomerData update: optional id and coordinates, plus dynamic
attribute entries. -/
structure RecordUpdates where
  newId : Option String
  newLat : Option ℚ
  newLng : Option ℚ
  fields : List (String × Value)
deriving DecidableEq

/-- The spread merge of a record with an update object. -/
def mergeRecord (d : CustomerData) (u : RecordUpdates) : CustomerData :=
  { id := u.newId.getD d.id
    lat := u.newLat.getD d.lat
    lng := u.newLng.getD d.lng
    fields := mergeFields d.fields u.fields }

/-! ## Single and bulk edits (src/App.tsx lines 218-242) -/

/-- handleSaveCustomer (App.tsx lines 218-226): in every layer that contains
a record with the given id, replace each such record by its shallow merge
with the update. -/
def handleSaveCustomer (id : String) (u : RecordUpdates) (layers : List LayerConfig) : List LayerConfig :=
  layers.map (fun layer =>
    if layer.data.any (fun d => d.id == id) then
      { layer with data := layer.data.map (fun item => if item.id == id then mergeRecord item u else item) }
    else layer)

/-- handleBulkSave (App.tsx lines 228-242) with the target id set made
explicit: layers with no matching record are returned as-is, otherwise every
record whose id is a target is shallow-merged with the update. -/
def handleBulkSave (targetIds : List String) (u : RecordUpdates) (layers : List LayerConfig) : List LayerConfig :=
  layers.map (fun layer =>
    if (layer.data.filter (fun d => targetIds.contains d.id)).length = 0 then layer
    else { layer with data := layer.data.map (fun item => if targetIds.contains item.id then mergeRecord item u else item) })

/-! ## Category colors and layer config updates -/

/-- The fixed palette (CATEGORY_COLORS, src/constants.ts). -/
def CATEGORY_COLORS : List String :=
  ["#ef4444", "#3b82f6", "#10b981", "#f59e0b", "#8b5cf6", "#ec4899",
   "#06b6d4", "#f97316", "#6366f1", "#84cc16", "#14b8a6", "#d946ef"]

/-- Insertion-order set insertion, as a JS Set accumulates values. -/
def insertUniq (acc : List String) (x : String) : List String :=
  if acc.contains x then acc else acc ++ [x]

/-- The distinct normalized values of a field over the records, in first-seen
order (Array.from of a Set in generateColorMap). -/
def uniqueCategoryValues (data : List CustomerData) (field : String) : List String :=
  data.foldl (fun acc d => insertUniq acc (categoryValue d field)) []

/-- generateColorMap (src/utils/excelHelpers.ts lines 53-60). -/
def generateColorMap (data : List CustomerData) (field : String) : List (String × String) :=
  (uniqueCategoryValues data field).enum.map
    (fun iv => (iv.2, CATEGORY_COLORS.getD (iv.1 % CATEGORY_COLORS.length) ""))

/-- A Partial LayerConfig update object. -/
structure LayerUpdates where
  name : Option String
  visible : Option Bool
  colorByField : Option String
  shapeByField : Option String
  labelByField : Option String
  pointSize : Option ℚ
  colorMap : Option (List (String × String))
  shapeMap : Option (List (String × String))
  hiddenCategories : Option (List String)
  defaultColor : Option String
  defaultShape : Option String
  data : Option (List CustomerData)
deriving DecidableEq

/-- A layer update object that only sets colorByField. -/
def colorByFieldUpdate (b : String) : LayerUpdates :=
  { name := none, visible := none, colorByField := some b, shapeByField := none
    labelByField := none, pointSize := none, colorMap := none, shapeMap := none
    hiddenCategories := none, defaultColor := none, defaultShape := none, data := none }

/-- The spread merge of a layer with an update object. -/
def applyLayerUpdates (l : LayerConfig) (u : LayerUpdates) : LayerConfig :=
  { l with
    name := u.name.getD l.name
    visible := u.visible.getD l.visible
    colorByField := u.colorByField.getD l.colorByField
    shapeByField := u.shapeByField.getD l.shapeByField
    labelByField := u.labelByField.getD l.labelByField
    pointSize := u.pointSize.getD l.pointSize
    colorMap := u.colorMap.getD l.colorMap
    shapeMap := u.shapeMap.getD l.shapeMap
    hiddenCategories := u.hiddenCategories.getD l.hiddenCategories
    defaultColor := u.defaultColor.getD l.defaultColor
    defaultShape := u.defaultShape.getD l.defaultShape
    data := u.data.getD l.data }

/-- updateLayerConfig (App.tsx lines 146-156): merge the update into the
matching layer; when a truthy colorByField different from the current one is
supplied, regenerate the color map from the layer's records and clear the
hidden categories. -/
def updateLayerConfig (id : String) (u : LayerUpdates) (layers : List LayerConfig) : List LayerConfig :=
  layers.map (fun l =>
    if l.id ≠ id then l
    else
      let updated := applyLayerUpdates l u
      match u.colorByField with
      | some b =>
        if b ≠ "" ∧ b ≠ l.colorByField then
          { updated with colorMap := generateColorMap l.data b, hiddenCategories := [] }
        else updated
      | none => updated)

/-- The toggled hidden category list (App.tsx lines 175-177): remove every
occurrence when present, append otherwise. -/
def toggleList (hc : List String) (category : String) : List String :=
  if hc.contains category then hc.filter (fun c => !(c == category))
  else hc ++ [category]

/-- The per-layer body of toggleLayerCategory (App.tsx lines 170-179). -/
def toggleCategoryOnce (layerId category : String) (l : LayerConfig) : LayerConfig :=
  if l.id ≠ layerId then l
  else { l with hiddenCategories := toggleList l.hiddenCategories category }

/-- toggleLayerCategory (App.tsx lines 169-180): toggle membership of the
category in the matching layer's hiddenCategories. -/
def toggleLayerCategory (layerId category : String) (layers : List LayerConfig) : List LayerConfig :=
  layers.map (toggleCategoryOnce layerId category)

/-! ## Enrichment (handleEnrichLayer, src/App.tsx lines 244-278) -/

/-- The enrichment target attribute (Arabic for area/region). -/
def areaKey : String := "المنطقة"

/-- Eligibility test of the enrichment loop: truthy coordinates and a falsy
target field (App.tsx line 260). -/
def eligibleForEnrich (d : CustomerData) : Bool :=
  !(d.lat = 0) && !(d.lng = 0) &&
    !(match d.get areaKey with
      | some v => v.truthy
      | none => false)

/-- The indices the enrichment run will visit, in discovery order: enumerate
the records, keep those in the multi-select when one is active, keep the
eligible ones, project to indices (App.tsx lines 257-261). -/
def indicesToProcess (sel : List (CustomerData × String)) (data : List CustomerData) : List Nat :=
  ((data.enum.filter (fun di =>
      if sel.length > 0 then (sel.map (fun s => s.1.id)).contains di.2.id else true)).filter
    (fun di => eligibleForEnrich di.2)).map (fun di => di.1)

/-- Writes the fetched area name into a record, as the spread on App.tsx line 268. -/
def setAreaField (d : CustomerData) (area : String) : CustomerData :=
  mergeRecord d { newId := none, newLat := none, newLng := none, fields := [(areaKey, .str area)] }

/-- The enrichment for-loop (App.tsx lines 265-274): the k-th iteration
writes the k-th fetched address into the record at the k-th listed index. -/
def enrichLoop (fetch : Nat → String) : Nat → List Nat → List CustomerData → List CustomerData
  | _, [], data => data
  | k, i :: rest, data => enrichLoop fetch (k + 1) rest (data.modify (fun d => setAreaField d (fetch k)) i)

/-- One complete enrichment pass over a layer's records: visit at most 500 of
the discovered indices (App.tsx lines 263-274). -/
def enrichRun (fetch : Nat → String) (sel : List (CustomerData × String)) (data : List CustomerData) : List CustomerData :=
  enrichLoop fetch 0
    ((indicesToProcess sel data).take (min (indicesToProcess sel data).length 500)) data

/-- The slice of application state that the enrichment operation touches. -/
structure AppState where
  layers : List LayerConfig
  enrichingLayerId : Option String
  multiSelected : List (CustomerData × String)
deriving DecidableEq

/-- handleEnrichLayer (App.tsx lines 244-278), run to completion: a truthy
enrichingLayerId or an unknown layer id is a no-op; otherwise the matching
layer's data is replaced by the enrichment pass output and the in-flight
marker is cleared again. -/
def handleEnrichLayer (fetch : Nat → String) (layerId : String) (s : AppState) : AppState :=
  if (s.enrichingLayerId.getD "") ≠ "" then s
  else
    match s.layers.find? (fun l => l.id == layerId) with
    | none => s
    | some layer =>
      { s with
        layers := s.layers.map (fun l =>
          if l.id == layerId then { l with data := enrichRun fetch s.multiSelected layer.data } else l)
        enrichingLayerId := none }

/-! ## Geometry (src/utils/geoUtils.ts) -/

/-- A latitude/longitude pair (GeoPoint, src/types.ts). -/
structure GeoPoint where
  lat : ℚ
  lng : ℚ
deriving DecidableEq

/-- One edge test of the ray-casting loop (geoUtils.ts lines 100-101). -/
def edgeCrosses (p vi vj : GeoPoint) : Bool :=
  (decide (vi.lat > p.lat) != decide (vj.lat > p.lat)) &&
    decide (p.lng < (vj.lng - vi.lng) * (p.lat - vi.lat) / (vj.lat - vi.lat) + vi.lng)

/-- isPointInPolygon (geoUtils.ts lines 93-105): even-odd ray casting over
the edges (i, j) with j the predecessor of i cyclically. -/
def isPointInPolygon (p : GeoPoint) (vs : List GeoPoint) : Bool :=
  (List.range vs.length).foldl
    (fun inside i =>
      let vi := vs.getD i ⟨0, 0⟩
      let vj := vs.getD (if i = 0 then vs.length - 1 else i - 1) ⟨0, 0⟩
      if edgeCrosses p vi vj then !inside else inside)
    false

/-! ## Spreadsheet import (parseExcelFile, src/utils/excelHelpers.ts lines 11-51) -/

/-- Recognized latitude column aliases (LAT_KEYS, src/constants.ts). -/
def LAT_KEYS : List String := ["lat", "latitude", "خط العرض", "y", "خط_العرض"]

/-- Recognized longitude column aliases (LNG_KEYS, src/constants.ts). -/
def LNG_KEYS : List String := ["lng", "long", "longitude", "خط الطول", "x", "خط_الطول"]

/-- Case-insensitive alias search over a row's keys (findKey, excelHelpers.ts lines 6-9). -/
def findKey (row : List (String × Value)) (keys : List String) : Option String :=
  (row.map (fun kv => kv.1)).find? (fun k => keys.contains (jsToLower k))

/-- Processing of one imported row (excelHelpers.ts lines 23-40): coordinates
are parsed only when both alias columns resolve, and a NaN parse (the parser
returning none) is coerced to zero. The number parser stands for the JS
parseFloat builtin. -/
def processRow (pf : Value → Option ℚ) (index : Nat) (row : List (String × Value)) : CustomerData :=
  let latKey := findKey row LAT_KEYS
  let lngKey := findKey row LNG_KEYS
  let lat : ℚ := match latKey, lngKey with
    | some lk, some _ => ((row.lookup lk).bind pf).getD 0
    | _, _ => 0
  let lng : ℚ := match latKey, lngKey with
    | some _, some gk => ((row.lookup gk).bind pf).getD 0
    | _, _ => 0
  { id := match row.lookup "id" with
      | some v => v.toStr
      | none => "row-" ++ natToString index
    lat := lat
    lng := lng
    fields := row.filter (fun kv => !(kv.1 == "id") && !(kv.1 == "lat") && !(kv.1 == "lng")) }

/-- parseExcelFile (excelHelpers.ts lines 11-51) downstream of the sheet
reader: process every row, then drop records with a zero coordinate. -/
def parseExcelFile (pf : Value → Option ℚ) (rows : List (List (String × Value))) : List CustomerData :=
  (rows.enum.map (fun ir => processRow pf ir.1 ir.2)).filter
    (fun c => !(c.lat = 0) && !(c.lng = 0))

/-! ## Specification-side auxiliary definitions -/

/-- First-seen-order duplicate removal, written independently of the color
map generator so the generator's key order can be characterized against it. -/
def dedupFirstAux (seen : List String) : List String → List String
  | [] => []
  | x :: xs => if seen.contains x then dedupFirstAux seen xs else x :: dedupFirstAux (seen ++ [x]) xs

/-- Duplicate removal keeping the first occurrence of every element. -/
def dedupFirst (xs : List String) : List String := dedupFirstAux [] xs

/-! ## Sample data for concrete instantiations -/

/-- A record with city and status attributes. -/
def sampleRecordCairo : CustomerData :=
  { id := "r1", lat := 1, lng := 2, fields := [("city", .str "Cairo"), ("status", .str "very active")] }

/-- A record lacking a score attribute. -/
def sampleRecordNoScore : CustomerData :=
  { id := "r2", lat := 1, lng := 2, fields := [("city", .str "Cairo"), ("status", .str "inactive")] }

/-- A record carrying a score attribute. -/
def sampleRecordScored : CustomerData :=
  { id := "r3", lat := 1, lng := 2, fields := [("score", .str "7")] }

/-- A minimal layer around the given records. -/
def mkSampleLayer (lid : String) (d : List CustomerData) : LayerConfig :=
  { id := lid, name := "n", fileName := "n.xlsx", data := d, visible := true, isPlacesLayer := none
    colorByField := "city", shapeByField := "city", labelByField := "", pointSize := 12
    colorMap := [], shapeMap := [], hiddenCategories := [], defaultColor := "#3b82f6", defaultShape := "circle" }

/-- An equals rule on the city attribute. -/
def equalsCairoRule : FilterRule :=
  { id := "f1", field := "city", operator := .equals, value := "Cairo", style := none }

/-- A contains rule on the status attribute. -/
def containsActiveRule : FilterRule :=
  { id := "f2", field := "status", operator := .contains, value := "active", style := none }

/-- A rule using the unhandled gt operator. -/
def gtScoreRule : FilterRule :=
  { id := "f3", field := "score", operator := .gt, value := "5", style := none }

/-- First record with a duplicated id. -/
def dupRecordA : CustomerData := { id := "a", lat := 1, lng := 1, fields := [("city", .str "X")] }

/-- Second record with the same id in another layer. -/
def dupRecordB : CustomerData := { id := "a", lat := 2, lng := 2, fields := [("city", .str "Y")] }

/-- Layer holding the first duplicate. -/
def dupLayer1 : LayerConfig := mkSampleLayer "L1" [dupRecordA]

/-- Layer holding the second duplicate. -/
def dupLayer2 : LayerConfig := mkSampleLayer "L2" [dupRecordB]

/-- An update writing the city attribute. -/
def cityToZ : RecordUpdates := { newId := none, newLat := none, newLng := none, fields := [("city", .str "Z")] }

/-- A layer with a non-empty hidden category list. -/
def hiddenLayer : LayerConfig := { mkSampleLayer "L1" [dupRecordA] with hiddenCategories := ["X"] }

/-- A deterministic address oracle for enrichment instantiations. -/
def sampleFetch : Nat → String := fun k => "A" ++ natToString k

/-- An application state with an enrichment already in flight. -/
def busyState : AppState :=
  { layers := [dupLayer1], enrichingLayerId := some "L1", multiSelected := [] }

/-- An idle application state holding one enrichable layer. -/
def idleState : AppState :=
  { layers := [dupLayer1], enrichingLayerId := none, multiSelected := [] }

/-- A concrete number parser standing in for parseFloat in instantiations. -/
def numParse : Value → Option ℚ :=
  fun v => match v with | .num q => some q | .str _ => none

/-- Sample import rows: one valid, one with a zero latitude. -/
def sampleRows : List (List (String × Value)) :=
  [[("Latitude", .num 3), ("lng", .num 4)], [("lat", .num 0), ("lng", .num 4)]]

/-! ## Helper lemmas -/

/-- A rule whose operator reaches the default switch arm matches every record
with a non-null field value. -/
lemma ruleMatches_of_unrecognized (f : FilterRule) (d : CustomerData)
    (hop : f.operator = .gt ∨ f.operator = .lt) (hp : (d.get f.field).isSome) :
    ruleMatches f d = true := by
  unfold ruleMatches
  rcases hget : d.get f.field with _ | v
  · rw [hget] at hp
    simp at hp
  · rcases hop with h | h <;> simp [h]

/-- A highlight rule passes every record. -/
lemma rulePass_of_highlight (f : FilterRule) (d : CustomerData)
    (hh : f.isHighlight = true) : rulePass f d = true := by
  simp [rulePass, hh]

/-- Non-highlight rules pass exactly when the matcher accepts. -/
lemma rulePass_of_not_highlight (f : FilterRule) (d : CustomerData)
    (hh : f.isHighlight = false) : rulePass f d = ruleMatches f d := by
  simp [rulePass, hh]

/-! ## C1 -/

/-- C1. Rule filtering is conjunctive: a record that survives the legend
stage is in the stage-2 visible set iff it satisfies the matcher of every
non-highlight rule, and a highlight rule (style.enabled = true) never
excludes any record. -/
theorem rule_filter_conjunctive (filters : List FilterRule) (layer : LayerConfig)
    (d : CustomerData) (hd : d ∈ legendFilter layer) :
    (d ∈ visibleData filters layer ↔
      ∀ f ∈ filters, f.isHighlight = false → ruleMatches f d = true) ∧
    (∀ f ∈ filters, f.isHighlight = true → rulePass f d = true) := by
  refine ⟨?_, fun f _ hf => rulePass_of_highlight f d hf⟩
  unfold visibleData ruleFilter
  rcases filters with _ | ⟨f0, fs⟩
  · simpa using hd
  · rw [if_pos (by simp)]
    rw [List.mem_filter]
    simp only [List.all_eq_true]
    constructor
    · rintro ⟨-, hall⟩ f hf hfh
      have hpass := hall f hf
      rwa [rulePass_of_not_highlight f d hfh] at hpass
    · intro h
      refine ⟨hd, fun f hf => ?_⟩
      by_cases hh : f.isHighlight = true
      · exact rulePass_of_highlight f d hh
      · rw [Bool.not_eq_true] at hh
        rw [rulePass_of_not_highlight f d hh]
        exact h f hf hh

/-- C1 witness: the conjunctive characterization instantiated on a concrete
two-rule filter list and record. -/
theorem rule_filter_conjunctive_witness :
    (sampleRecordCairo ∈ visibleData [equalsCairoRule, containsActiveRule]
        (mkSampleLayer "L1" [sampleRecordCairo]) ↔
      ∀ f ∈ [equalsCairoRule, containsActiveRule],
        f.isHighlight = false → ruleMatches f sampleRecordCairo = true) ∧
    (∀ f ∈ [equalsCairoRule, containsActiveRule],
      f.isHighlight = true → rulePass f sampleRecordCairo = true) :=
  rule_filter_conjunctive [equalsCairoRule, containsActiveRule]
    (mkSampleLayer "L1" [sampleRecordCairo]) sampleRecordCairo (by decide)

/-! ## C2 -/

/-- C2 counterexample: a rule with the unrecognized gt operator does hide a
record when the rule field is missing, because the null check precedes the
operator switch; the record survives the legend stage yet the visible set is
empty. -/
theorem unknown_operator_hides_null_field :
    sampleRecordNoScore ∈ legendFilter (mkSampleLayer "L1" [sampleRecordNoScore]) ∧
    visibleData [gtScoreRule] (mkSampleLayer "L1" [sampleRecordNoScore]) = [] := by
  decide

/-- Membership in the visible set is legend survival plus passing every rule. -/
lemma mem_visibleData (fl : List FilterRule) (layer : LayerConfig) (d : CustomerData) :
    d ∈ visibleData fl layer ↔
      d ∈ legendFilter layer ∧ ∀ f ∈ fl, rulePass f d = true := by
  unfold visibleData ruleFilter
  rcases fl with _ | ⟨f0, fs⟩
  · simp
  · rw [if_pos (by simp), List.mem_filter, List.all_eq_true]

/-- C2 amended: appending a rule with an unrecognized operator never removes
any record whose rule field is present (non-null) from the visible set; only
records missing the field can be hidden by such a rule. -/
theorem unknown_operator_keeps_present_fields (filters : List FilterRule)
    (r : FilterRule) (layer : LayerConfig)
    (hop : r.operator = .gt ∨ r.operator = .lt)
    (hp : ∀ d ∈ visibleData filters layer, (d.get r.field).isSome) :
    visibleData (filters ++ [r]) layer = visibleData filters layer := by
  have hpass : ∀ d ∈ visibleData filters layer, rulePass r d = true := by
    intro d hd
    by_cases hh : r.isHighlight = true
    · exact rulePass_of_highlight r d hh
    · rw [Bool.not_eq_true] at hh
      rw [rulePass_of_not_highlight r d hh]
      exact ruleMatches_of_unrecognized r d hop (hp d hd)
  unfold visibleData ruleFilter
  rcases filters with _ | ⟨f0, fs⟩
  · rw [if_pos (by simp), if_neg (by simp)]
    refine List.filter_eq_self.mpr ?_
    intro d hd
    have hr := hpass d ((mem_visibleData [] layer d).mpr ⟨hd, by simp⟩)
    simp [hr]
  · rw [if_pos (by simp), if_pos (by simp)]
    refine List.filter_congr ?_
    intro d hd
    rw [List.all_append]
    by_cases hall : ((f0 :: fs).all fun f => rulePass f d) = true
    · have hmem : d ∈ visibleData (f0 :: fs) layer :=
        (mem_visibleData (f0 :: fs) layer d).mpr ⟨hd, List.all_eq_true.mp hall⟩
      have hr := hpass d hmem
      rw [hall]
      simp [hr]
    · rw [Bool.not_eq_true] at hall
      rw [hall]
      simp

/-- C2 amended witness: the appended gt rule changes nothing on a layer
whose visible records all carry the score field. -/
theorem unknown_operator_keeps_present_fields_witness :
    visibleData ([] ++ [gtScoreRule]) (mkSampleLayer "L1" [sampleRecordScored]) =
      visibleData [] (mkSampleLayer "L1" [sampleRecordScored]) :=
  unknown_operator_keeps_present_fields [] gtScoreRule
    (mkSampleLayer "L1" [sampleRecordScored]) (Or.inl rfl) (by decide)

/-! ## C9 -/

/-- C9. A rule with operator gt or lt never excludes a record whose rule
field is present: both the operator matcher and the full rule predicate
accept such a record, since the declared numeric operators fall through to
the always-pass default arm. -/
theorem gt_lt_never_excludes_present (f : FilterRule) (d : CustomerData)
    (hop : f.operator = .gt ∨ f.operator = .lt)
    (hp : (d.get f.field).isSome) :
    ruleMatches f d = true ∧ rulePass f d = true := by
  have hm := ruleMatches_of_unrecognized f d hop hp
  refine ⟨hm, ?_⟩
  by_cases hh : f.isHighlight = true
  · exact rulePass_of_highlight f d hh
  · rw [Bool.not_eq_true] at hh
    rw [rulePass_of_not_highlight f d hh]
    exact hm

/-- C9 witness: the gt rule accepts a concrete record carrying the score
field. -/
theorem gt_lt_never_excludes_present_witness :
    ruleMatches gtScoreRule sampleRecordScored = true ∧
      rulePass gtScoreRule sampleRecordScored = true :=
  gt_lt_never_excludes_present gtScoreRule sampleRecordScored (Or.inl rfl) (by decide)

/-! ## C3 -/

/-- C3 counterexample: with the same record id in two layers, the
single-record edit also rewrites the second layer, so the later layer is not
left unchanged. -/
theorem save_customer_updates_later_layer :
    (handleSaveCustomer "a" cityToZ [dupLayer1, dupLayer2])[1]? ≠ some dupLayer2 := by
  decide

/-- C3 amended: handleSaveCustomer shallow-merges the update into the
matching records of every layer containing the id, not only the first;
layers without the id are unchanged. -/
theorem save_customer_updates_every_matching_layer (id : String) (u : RecordUpdates)
    (layers : List LayerConfig) (i : Nat) (l : LayerConfig) (hl : layers[i]? = some l) :
    (handleSaveCustomer id u layers)[i]? =
      some { l with data := l.data.map (fun item =>
        if item.id == id then mergeRecord item u else item) } := by
  unfold handleSaveCustomer
  rw [List.getElem?_map, hl]
  simp only [Option.map_some']
  by_cases hex : (l.data.any fun d => d.id == id) = true
  · rw [if_pos hex]
  · rw [Bool.not_eq_true] at hex
    rw [if_neg (by simp [hex])]
    have hnone : ∀ d ∈ l.data, (d.id == id) = false := by
      intro d hd
      by_contra hc
      rw [Bool.not_eq_false] at hc
      have : (l.data.any fun d => d.id == id) = true := List.any_eq_true.mpr ⟨d, hd, hc⟩
      rw [this] at hex
      cases hex
    have hmap : (l.data.map fun item => if item.id == id then mergeRecord item u else item)
        = l.data := by
      rw [List.map_congr_left ?_, List.map_id]
      intro a ha
      rw [hnone a ha]
      rfl
    rw [hmap]

/-- C3 amended witness: the second layer carrying the duplicated id receives
the merge as well. -/
theorem save_customer_updates_every_matching_layer_witness :
    (handleSaveCustomer "a" cityToZ [dupLayer1, dupLayer2])[1]? =
      some { dupLayer2 with data := dupLayer2.data.map (fun item =>
        if item.id == "a" then mergeRecord item cityToZ else item) } :=
  save_customer_updates_every_matching_layer "a" cityToZ [dupLayer1, dupLayer2] 1 dupLayer2
    (by decide)

/-! ## C6 -/

/-- C6. Bulk edit is exactly scoped: in every layer, precisely the records
whose id lies in the target set are shallow-merged with the update, all other
records and every non-data layer field are unchanged. -/
theorem bulk_save_exact_scope (targetIds : List String) (u : RecordUpdates)
    (layers : List LayerConfig) (i : Nat) (l : LayerConfig) (hl : layers[i]? = some l) :
    (handleBulkSave targetIds u layers)[i]? =
      some { l with data := l.data.map (fun item =>
        if targetIds.contains item.id then mergeRecord item u else item) } := by
  unfold handleBulkSave
  rw [List.getElem?_map, hl]
  simp only [Option.map_some']
  by_cases hlen : (l.data.filter fun d => targetIds.contains d.id).length = 0
  · rw [if_pos hlen]
    have hnil := List.length_eq_zero.mp hlen
    have hnone : ∀ d ∈ l.data, (targetIds.contains d.id) = false := by
      intro d hd
      by_contra hc
      rw [Bool.not_eq_false] at hc
      have hmem : d ∈ (l.data.filter fun d => targetIds.contains d.id) :=
        List.mem_filter.mpr ⟨hd, hc⟩
      rw [hnil] at hmem
      cases hmem
    have hmap : (l.data.map fun item =>
        if targetIds.contains item.id then mergeRecord item u else item) = l.data := by
      rw [List.map_congr_left ?_, List.map_id]
      intro a ha
      rw [hnone a ha]
      rfl
    rw [hmap]
  · rw [if_neg hlen]

/-- C6 witness: the bulk edit at one target id rewrites exactly that record
in the first layer. -/
theorem bulk_save_exact_scope_witness :
    (handleBulkSave ["a"] cityToZ [dupLayer1, dupLayer2])[0]? =
      some { dupLayer1 with data := dupLayer1.data.map (fun item =>
        if (["a"] : List String).contains item.id then mergeRecord item cityToZ else item) } :=
  bulk_save_exact_scope ["a"] cityToZ [dupLayer1, dupLayer2] 0 dupLayer1 (by decide)

/-! ## C4 -/

/-- A contains test on string lists is membership. -/
lemma contains_iff {l : List String} {a : String} : l.contains a = true ↔ a ∈ l :=
  List.elem_iff

/-- The foldl accumulation of insertUniq is first-seen deduplication. -/
lemma foldl_insertUniq (xs : List String) :
    ∀ acc, xs.foldl insertUniq acc = acc ++ dedupFirstAux acc xs := by
  induction xs with
  | nil => intro acc; simp [dedupFirstAux]
  | cons x xs ih =>
    intro acc
    rw [List.foldl_cons]
    by_cases hc : acc.contains x = true
    · rw [show insertUniq acc x = acc from by rw [insertUniq, if_pos hc]]
      rw [ih]
      rw [show dedupFirstAux acc (x :: xs) = dedupFirstAux acc xs from by
        rw [dedupFirstAux, if_pos hc]]
    · rw [Bool.not_eq_true] at hc
      have hcn : ¬ acc.contains x = true := by rw [hc]; exact Bool.false_ne_true
      rw [show insertUniq acc x = acc ++ [x] from by rw [insertUniq, if_neg hcn]]
      rw [ih]
      rw [show dedupFirstAux acc (x :: xs) = x :: dedupFirstAux (acc ++ [x]) xs from by
        rw [dedupFirstAux, if_neg hcn]]
      simp

/-- The unique category value list is the first-seen deduplication of the
normalized column. -/
lemma uniqueCategoryValues_eq_dedupFirst (data : List CustomerData) (field : String) :
    uniqueCategoryValues data field = dedupFirst (data.map (fun d => categoryValue d field)) := by
  unfold uniqueCategoryValues dedupFirst
  rw [← List.foldl_map (fun d => categoryValue d field) insertUniq data []]
  rw [foldl_insertUniq]
  rfl

/-- The keys of a generated color map are the unique category values. -/
lemma generateColorMap_keys (data : List CustomerData) (field : String) :
    (generateColorMap data field).map Prod.fst = uniqueCategoryValues data field := by
  unfold generateColorMap
  rw [List.map_map]
  exact List.enum_map_snd (uniqueCategoryValues data field)

/-- Every entry of a generated color map takes the palette color at its index
modulo the palette length. -/
lemma generateColorMap_values (data : List CustomerData) (field : String)
    (j : Nat) (v c : String) (h : (generateColorMap data field)[j]? = some (v, c)) :
    c = CATEGORY_COLORS.getD (j % CATEGORY_COLORS.length) "" := by
  unfold generateColorMap at h
  rw [List.getElem?_map, List.getElem?_enum] at h
  rcases he : (uniqueCategoryValues data field)[j]? with _ | x
  · rw [he] at h
    cases h
  · rw [he] at h
    simp only [Option.map_some'] at h
    cases h
    rfl

/-- C4 counterexample: updating with the empty-string colorByField value,
different from the current field, neither regenerates the color map nor
resets the hidden categories, because the code guards on truthiness of the
incoming value. -/
theorem empty_colorByField_skips_reset :
    "" ≠ hiddenLayer.colorByField ∧
    (updateLayerConfig "L1" (colorByFieldUpdate "") [hiddenLayer])[0]? =
      some { hiddenLayer with colorByField := "" } ∧
    ({ hiddenLayer with colorByField := "" } : LayerConfig).hiddenCategories ≠ [] ∧
    ({ hiddenLayer with colorByField := "" } : LayerConfig).colorMap.map Prod.fst ≠
      dedupFirst (hiddenLayer.data.map (fun d => categoryValue d "")) := by
  decide

/-- C4 amended: updating a layer config with a non-empty colorByField value B
different from the current one produces a color map whose keys are exactly
the distinct normalized values of B over the layer's records in first-seen
order, with each entry colored by the palette at its index modulo the palette
length, and resets hiddenCategories to the empty list. -/
theorem colorByField_change_regenerates (layers : List LayerConfig) (i : Nat)
    (l : LayerConfig) (B : String) (hl : layers[i]? = some l)
    (hB : B ≠ "") (hne : B ≠ l.colorByField) :
    ∃ lu, (updateLayerConfig l.id (colorByFieldUpdate B) layers)[i]? = some lu ∧
      lu.colorMap.map Prod.fst = dedupFirst (l.data.map (fun d => categoryValue d B)) ∧
      (∀ j v c, lu.colorMap[j]? = some (v, c) →
        c = CATEGORY_COLORS.getD (j % CATEGORY_COLORS.length) "") ∧
      lu.hiddenCategories = [] := by
  have hstep : (updateLayerConfig l.id (colorByFieldUpdate B) layers)[i]? =
      some { applyLayerUpdates l (colorByFieldUpdate B) with
             colorMap := generateColorMap l.data B, hiddenCategories := [] } := by
    unfold updateLayerConfig
    rw [List.getElem?_map, hl]
    simp only [Option.map_some', colorByFieldUpdate]
    rw [if_neg (by simp), if_pos ⟨hB, hne⟩]
  refine ⟨_, hstep, ?_, ?_, rfl⟩
  · show (generateColorMap l.data B).map Prod.fst = _
    rw [generateColorMap_keys, uniqueCategoryValues_eq_dedupFirst]
  · intro j v c h
    exact generateColorMap_values l.data B j v c h

/-- C4 amended witness: regeneration at a concrete layer and a concrete new
grouping field. -/
theorem colorByField_change_regenerates_witness :
    ∃ lu, (updateLayerConfig hiddenLayer.id (colorByFieldUpdate "status") [hiddenLayer])[0]? = some lu ∧
      lu.colorMap.map Prod.fst = dedupFirst (hiddenLayer.data.map (fun d => categoryValue d "status")) ∧
      (∀ j v c, lu.colorMap[j]? = some (v, c) →
        c = CATEGORY_COLORS.getD (j % CATEGORY_COLORS.length) "") ∧
      lu.hiddenCategories = [] :=
  colorByField_change_regenerates [hiddenLayer] 0 hiddenLayer "status" (by decide) (by decide)
    (by decide)

/-! ## C7 -/

/-- Legend filtering is unchanged when the hidden category list is replaced
by one with the same membership. -/
lemma legendFilter_congr_hidden (l : LayerConfig) (h2 : List String)
    (hmem : ∀ c, h2.contains c = l.hiddenCategories.contains c) :
    legendFilter { l with hiddenCategories := h2 } = legendFilter l := by
  have hnil : h2 = [] ↔ l.hiddenCategories = [] := by
    constructor
    · intro h
      rw [List.eq_nil_iff_forall_not_mem]
      intro a ha
      have hc : h2.contains a = true := by rw [hmem]; exact contains_iff.mpr ha
      rw [h] at hc
      exact absurd (contains_iff.mp hc) (List.not_mem_nil a)
    · intro h
      rw [List.eq_nil_iff_forall_not_mem]
      intro a ha
      have hc : h2.contains a = true := contains_iff.mpr ha
      rw [hmem, h] at hc
      exact absurd (contains_iff.mp hc) (List.not_mem_nil a)
  unfold legendFilter
  simp only []
  by_cases hl : l.hiddenCategories.length > 0
  · have hl2 : h2.length > 0 := by
      rw [gt_iff_lt, List.length_pos] at hl ⊢
      exact fun h => hl (hnil.mp h)
    rw [if_pos hl2, if_pos hl]
    refine List.filter_congr ?_
    intro d _
    rw [hmem]
  · have hl2 : ¬ h2.length > 0 := by
      rw [gt_iff_lt, List.length_pos] at hl ⊢
      intro h
      exact h (hnil.mpr (not_not.mp hl))
    rw [if_neg hl2, if_neg hl]

/-- A matched layer gets its hidden categories toggled. -/
lemma toggleCategoryOnce_matched (layerId v : String) (l : LayerConfig)
    (h : ¬ l.id ≠ layerId) :
    toggleCategoryOnce layerId v l =
      { l with hiddenCategories := toggleList l.hiddenCategories v } := by
  rw [toggleCategoryOnce, if_neg h]

/-- An unmatched layer is returned as-is. -/
lemma toggleCategoryOnce_unmatched (layerId v : String) (l : LayerConfig)
    (h : l.id ≠ layerId) : toggleCategoryOnce layerId v l = l := by
  rw [toggleCategoryOnce, if_pos h]

/-- Toggling on a layer whose hidden list was already replaced rewrites just
that list again. -/
lemma toggleCategoryOnce_update (layerId v : String) (l : LayerConfig)
    (h : ¬ l.id ≠ layerId) (hs : List String) :
    toggleCategoryOnce layerId v { l with hiddenCategories := hs } =
      { l with hiddenCategories := toggleList hs v } := by
  rw [toggleCategoryOnce]
  exact if_neg h

/-- Double toggling preserves hidden category membership. -/
lemma toggleList_contains (hc : List String) (v c : String) :
    (toggleList (toggleList hc v) v).contains c = hc.contains c := by
  unfold toggleList
  by_cases hcv : hc.contains v = true
  · rw [if_pos hcv]
    have hf : (hc.filter (fun x => !(x == v))).contains v = false := by
      rw [Bool.eq_false_iff]
      intro hcc
      have := List.mem_filter.mp (contains_iff.mp hcc)
      simp at this
    have hfn : ¬ (hc.filter (fun x => !(x == v))).contains v = true := by
      rw [hf]
      exact Bool.false_ne_true
    rw [if_neg hfn]
    by_cases hc2 : c = v
    · subst hc2
      rw [hcv]
      apply contains_iff.mpr
      simp
    · rw [Bool.eq_iff_iff, contains_iff, contains_iff]
      constructor
      · intro hmem
        rcases List.mem_append.mp hmem with hm | hm
        · exact (List.mem_filter.mp hm).1
        · simp at hm
          exact absurd hm hc2
      · intro hmem
        apply List.mem_append.mpr
        left
        exact List.mem_filter.mpr ⟨hmem, by simp [hc2]⟩
  · rw [Bool.not_eq_true] at hcv
    have hcvn : ¬ hc.contains v = true := by
      rw [hcv]
      exact Bool.false_ne_true
    rw [if_neg hcvn]
    have hca : (hc ++ [v]).contains v = true := by
      apply contains_iff.mpr
      simp
    rw [if_pos hca]
    have hflt : (hc ++ [v]).filter (fun x => !(x == v)) = hc := by
      rw [List.filter_append]
      have h1 : hc.filter (fun x => !(x == v)) = hc := by
        apply List.filter_eq_self.mpr
        intro a ha
        have hav : ¬ a = v := by
          intro hav
          subst hav
          exact absurd (contains_iff.mpr ha) hcvn
        simp [hav]
      have h2 : ([v] : List String).filter (fun x => !(x == v)) = [] := by simp
      rw [h1, h2, List.append_nil]
    rw [hflt]

/-- Toggling the same category twice gives a layer with the same legend
filter output. -/
lemma legendFilter_toggle_twice (layerId v : String) (l : LayerConfig) :
    legendFilter (toggleCategoryOnce layerId v (toggleCategoryOnce layerId v l)) =
      legendFilter l := by
  by_cases hid : l.id ≠ layerId
  · rw [toggleCategoryOnce_unmatched layerId v l hid,
      toggleCategoryOnce_unmatched layerId v l hid]
  · rw [toggleCategoryOnce_matched layerId v l hid]
    rw [toggleCategoryOnce_update layerId v l hid (toggleList l.hiddenCategories v)]
    exact legendFilter_congr_hidden l _ (toggleList_contains l.hiddenCategories v)

/-- C7. Legend toggling is an involution on visibility: applying
toggleLayerCategory twice with the same layer id and category value yields,
for every layer position, exactly the original stage-1 legend-filtered
visible record list. -/
theorem toggle_category_involution (layerId v : String) (layers : List LayerConfig) (i : Nat) :
    ((toggleLayerCategory layerId v (toggleLayerCategory layerId v layers))[i]?).map legendFilter
      = (layers[i]?).map legendFilter := by
  unfold toggleLayerCategory
  rw [List.getElem?_map, List.getElem?_map]
  rcases layers[i]? with _ | l
  · rfl
  · simp only [Option.map_some']
    exact congrArg some (legendFilter_toggle_twice layerId v l)

/-! ## C8 -/

/-- The horizontal crossing point of the line through two vertices is the
same however the edge endpoints are ordered. -/
lemma crossingX_symm (p a b : GeoPoint) (h : a.lat ≠ b.lat) :
    (b.lng - a.lng) * (p.lat - a.lat) / (b.lat - a.lat) + a.lng =
      (a.lng - b.lng) * (p.lat - b.lat) / (a.lat - b.lat) + b.lng := by
  have h1 : b.lat - a.lat ≠ 0 := fun hh => h (by linarith)
  have h2 : a.lat - b.lat ≠ 0 := fun hh => h (by linarith)
  field_simp
  ring

/-- The ray-casting edge test is symmetric in the edge endpoints. -/
lemma edgeCrosses_comm (p a b : GeoPoint) : edgeCrosses p a b = edgeCrosses p b a := by
  have hbne : ∀ (x y : Bool), (x != y) = (y != x) := by decide
  unfold edgeCrosses
  by_cases ha : a.lat > p.lat <;> by_cases hb : b.lat > p.lat <;>
    first
      | (simp [ha, hb]; done)
      | (have hne : a.lat ≠ b.lat := by
           intro hh
           linarith
         rw [crossingX_symm p a b hne, hbne])

/-- C8. For every point, a vertex list with fewer than three vertices makes
isPointInPolygon return false: with zero or one vertex no edge test can fire,
and with two vertices the two directed edges are the same segment, whose
crossings cancel under the even-odd rule. -/
theorem point_in_small_polygon_false (p : GeoPoint) (vs : List GeoPoint)
    (h : vs.length < 3) : isPointInPolygon p vs = false := by
  rcases vs with _ | ⟨a, _ | ⟨b, _ | ⟨c, t⟩⟩⟩
  · rfl
  · have hred : isPointInPolygon p [a] = if edgeCrosses p a a then true else false := rfl
    rw [hred]
    have hself : edgeCrosses p a a = false := by
      unfold edgeCrosses
      simp
    rw [hself]
    rfl
  · have hred : isPointInPolygon p [a, b] =
        (if edgeCrosses p b a then !(if edgeCrosses p a b then true else false)
         else (if edgeCrosses p a b then true else false)) := rfl
    rw [hred, edgeCrosses_comm p b a]
    cases he : edgeCrosses p a b
    · rfl
    · rfl
  · exfalso
    simp only [List.length_cons] at h
    omega

/-- C8 witness: the degenerate two-vertex polygon rejects a concrete point. -/
theorem point_in_small_polygon_false_witness :
    (([⟨0, 0⟩, ⟨10, 10⟩] : List GeoPoint).length < 3) ∧
      isPointInPolygon ⟨5, 5⟩ [⟨0, 0⟩, ⟨10, 10⟩] = false :=
  ⟨by decide, point_in_small_polygon_false ⟨5, 5⟩ [⟨0, 0⟩, ⟨10, 10⟩] (by decide)⟩

/-! ## C10 -/

/-- C10. Every record produced by parseExcelFile has nonzero coordinates, and
the processed form of any row whose latitude or longitude ends up zero
(NaN coerced to zero, or a genuine zero coordinate) is absent from the
output. -/
theorem parse_excel_nonzero_coords (pf : Value → Option ℚ)
    (rows : List (List (String × Value))) :
    (∀ c ∈ parseExcelFile pf rows, c.lat ≠ 0 ∧ c.lng ≠ 0) ∧
    (∀ (i : Nat) (row : List (String × Value)), rows[i]? = some row →
      (processRow pf i row).lat = 0 ∨ (processRow pf i row).lng = 0 →
      processRow pf i row ∉ parseExcelFile pf rows) := by
  have hall : ∀ c ∈ parseExcelFile pf rows, c.lat ≠ 0 ∧ c.lng ≠ 0 := by
    intro c hc
    unfold parseExcelFile at hc
    have hp := (List.mem_filter.mp hc).2
    simp only [Bool.and_eq_true, Bool.not_eq_true', decide_eq_false_iff_not] at hp
    exact hp
  refine ⟨hall, ?_⟩
  intro i row _ hzero hmem
  rcases hall _ hmem with ⟨h1, h2⟩
  rcases hzero with h | h
  · exact h1 h
  · exact h2 h

/-- C10 witness: on concrete rows, the surviving record has nonzero
coordinates and the zero-latitude row is dropped. -/
theorem parse_excel_nonzero_coords_witness :
    (({ id := "row-0", lat := 3, lng := 4, fields := [("Latitude", Value.num 3)] } :
        CustomerData).lat ≠ 0 ∧
      ({ id := "row-0", lat := 3, lng := 4, fields := [("Latitude", Value.num 3)] } :
        CustomerData).lng ≠ 0) ∧
    processRow numParse 1 [("lat", Value.num 0), ("lng", Value.num 4)] ∉
      parseExcelFile numParse sampleRows := by
  have h := parse_excel_nonzero_coords numParse sampleRows
  exact ⟨h.1 _ (by decide),
    h.2 1 [("lat", Value.num 0), ("lng", Value.num 4)] (by decide) (Or.inl (by decide))⟩

/-! ## C5 -/

/-- The discovered enrichment indices are strictly increasing: they arise by
filtering the enumeration of the data. -/
lemma indicesToProcess_sorted (sel : List (CustomerData × String)) (data : List CustomerData) :
    (indicesToProcess sel data).Sorted (· < ·) := by
  have hsub : ((data.enum.filter (fun di =>
      if sel.length > 0 then (sel.map (fun s => s.1.id)).contains di.2.id else true)).filter
        (fun di => eligibleForEnrich di.2)).Sublist data.enum :=
    List.Sublist.trans (List.filter_sublist _) (List.filter_sublist _)
  have hsub2 := hsub.map Prod.fst
  rw [List.enum_map_fst] at hsub2
  unfold indicesToProcess
  exact List.Pairwise.sublist hsub2 (List.pairwise_lt_range data.length)

/-- The capped index list has no duplicates. -/
lemma indicesToProcess_take_nodup (sel : List (CustomerData × String)) (data : List CustomerData) :
    ((indicesToProcess sel data).take 500).Nodup := by
  have hst : ((indicesToProcess sel data).take 500).Sorted (· < ·) :=
    List.Pairwise.sublist (List.take_sublist _ _) (indicesToProcess_sorted sel data)
  exact List.Pairwise.imp (fun hab => Nat.ne_of_lt hab) hst

/-- Truncating at the minimum of length and the cap is truncating at the cap. -/
lemma take_min_500 (l : List Nat) : l.take (min l.length 500) = l.take 500 := by
  rcases Nat.le_total l.length 500 with h | h
  · rw [Nat.min_eq_left h, List.take_length, List.take_of_length_le h]
  · rw [Nat.min_eq_right h]

/-- Element-wise description of the enrichment loop on a duplicate-free index
list: the record at the k-th listed index receives the k-th fetched address,
all other records are untouched. -/
lemma enrichLoop_getElem (fetch : Nat → String) (idxs : List Nat) :
    ∀ (k : Nat) (data : List CustomerData), idxs.Nodup → ∀ i : Nat,
      (enrichLoop fetch k idxs data)[i]? =
        if i ∈ idxs then
          (data[i]?).map (fun d => setAreaField d (fetch (k + idxs.indexOf i)))
        else data[i]? := by
  induction idxs with
  | nil =>
    intro k data _ i
    rw [if_neg (List.not_mem_nil i)]
    rfl
  | cons j rest ih =>
    intro k data hnd i
    have hjr : j ∉ rest := (List.nodup_cons.mp hnd).1
    have hndr : rest.Nodup := (List.nodup_cons.mp hnd).2
    show (enrichLoop fetch (k + 1) rest
      (List.modify (fun d => setAreaField d (fetch k)) j data))[i]? = _
    rw [ih (k + 1) _ hndr i]
    by_cases hij : i = j
    · subst hij
      rw [if_neg (fun hc => hjr hc), if_pos (List.mem_cons_self i rest)]
      rw [List.getElem?_modify]
      rw [List.indexOf_cons_self]
      rcases data[i]? with _ | d
      · rfl
      · show some (if i = i then setAreaField d (fetch k) else d) = _
        rw [if_pos rfl, Nat.add_zero]
        rfl
    · have hji : ¬ j = i := fun hc => hij hc.symm
      have hmap : (fun a => if j = i then setAreaField a (fetch k) else a) =
          fun a : CustomerData => a := funext fun a => if_neg hji
      by_cases hir : i ∈ rest
      · rw [if_pos hir, if_pos (List.mem_cons_of_mem j hir)]
        rw [List.getElem?_modify, hmap]
        have hidx : List.indexOf i (j :: rest) = List.indexOf i rest + 1 := by
          rw [List.indexOf_cons]
          have : (j == i) = false := by
            rw [beq_eq_false_iff_ne]
            exact hji
          rw [this]
          rfl
        rw [hidx]
        have harith : k + 1 + List.indexOf i rest = k + (List.indexOf i rest + 1) := by omega
        rw [harith]
        rcases data[i]? with _ | d <;> rfl
      · rw [if_neg hir]
        rw [if_neg (by
          intro hc
          rcases List.mem_cons.mp hc with hcc | hcc
          · exact hij hcc
          · exact hir hcc)]
        rw [List.getElem?_modify, hmap]
        rcases data[i]? with _ | d <;> rfl

/-- Element-wise description of a full enrichment pass. -/
lemma enrichRun_getElem (fetch : Nat → String) (sel : List (CustomerData × String))
    (data : List CustomerData) (i : Nat) :
    (enrichRun fetch sel data)[i]? =
      if i ∈ (indicesToProcess sel data).take 500 then
        (data[i]?).map (fun d => setAreaField d
          (fetch (((indicesToProcess sel data).take 500).indexOf i)))
      else data[i]? := by
  unfold enrichRun
  rw [take_min_500]
  rw [enrichLoop_getElem fetch _ 0 data (indicesToProcess_take_nodup sel data) i]
  simp only [Nat.zero_add]

/-- C5. One enrichment pass touches at most 500 records, namely exactly those
at the capped prefix of the discovered eligible indices, in strictly
ascending discovery order with the k-th processed record receiving the k-th
fetched address; and invoking handleEnrichLayer with a truthy in-flight
marker is a silent no-op, while an idle invocation replaces only the target
layer's data with the pass output. -/
theorem enrich_cap_order_single_flight (fetch : Nat → String) :
    (∀ (s : AppState) (lid : String), (s.enrichingLayerId.getD "") ≠ "" →
      handleEnrichLayer fetch lid s = s) ∧
    (∀ (s : AppState) (lid : String) (layer : LayerConfig),
      s.enrichingLayerId = none →
      s.layers.find? (fun l => l.id == lid) = some layer →
      handleEnrichLayer fetch lid s =
        { s with
          layers := s.layers.map (fun l =>
            if l.id == lid then
              { l with data := enrichRun fetch s.multiSelected layer.data }
            else l)
          enrichingLayerId := none }) ∧
    (∀ (sel : List (CustomerData × String)) (data : List CustomerData),
      ((indicesToProcess sel data).take 500).length ≤ 500 ∧
      ((indicesToProcess sel data).take 500).Sorted (· < ·) ∧
      (∀ i : Nat, (enrichRun fetch sel data)[i]? =
        if i ∈ (indicesToProcess sel data).take 500 then
          (data[i]?).map (fun d => setAreaField d
            (fetch (((indicesToProcess sel data).take 500).indexOf i)))
        else data[i]?)) := by
  refine ⟨?_, ?_, ?_⟩
  · intro s lid hbusy
    rw [handleEnrichLayer, if_pos hbusy]
  · intro s lid layer hidle hfind
    rw [handleEnrichLayer, if_neg (by rw [hidle]; simp), hfind]
  · intro sel data
    refine ⟨?_, ?_, enrichRun_getElem fetch sel data⟩
    · rw [List.length_take]
      exact Nat.min_le_left 500 _
    · exact List.Pairwise.sublist (List.take_sublist _ _) (indicesToProcess_sorted sel data)

/-- C5 witness: the guard refuses a busy state, an idle run rewrites the
target layer, and the first eligible record of a concrete layer receives the
first fetched address. -/
theorem enrich_cap_order_single_flight_witness :
    handleEnrichLayer sampleFetch "L9" busyState = busyState ∧
    handleEnrichLayer sampleFetch "L1" idleState =
      { idleState with
        layers := idleState.layers.map (fun l =>
          if l.id == "L1" then
            { l with data := enrichRun sampleFetch idleState.multiSelected dupLayer1.data }
          else l)
        enrichingLayerId := none } ∧
    (enrichRun sampleFetch [] [dupRecordA])[0]? =
      if 0 ∈ (indicesToProcess [] [dupRecordA]).take 500 then
        (([dupRecordA] : List CustomerData)[0]?).map (fun d => setAreaField d
          (sampleFetch (((indicesToProcess [] [dupRecordA]).take 500).indexOf 0)))
      else ([dupRecordA] : List CustomerData)[0]? := by
  have h := enrich_cap_order_single_flight sampleFetch
  exact ⟨h.1 busyState "L9" (by decide),
    h.2.1 idleState "L1" dupLayer1 rfl (by decide),
    (h.2.2 [] [dupRecordA]).2.2 0⟩

end GoMap
